import Mathlib

/-!
Verification of the CanvasCue subscription accounting module.

Shallow embedding of the Subscription mongoose model (schema methods,
virtuals and the pre-save hook) and of the controller-level
`calculateProration` helper, together with proofs of the specified
properties.

Dates handled with calendar arithmetic (`setMonth`) are modelled as
calendar triples (year, 0-based month, day) with JavaScript `Date`
normalization; dates that are only subtracted as timestamps are modelled
as epoch milliseconds.  Money is modelled with exact rationals.
-/

namespace CanvasCue

/-- A calendar date as JavaScript exposes it: `getFullYear`, `getMonth`
(0-based), `getDate` (1-based day of month). -/
structure JSDate where
  year : Int
  month : Nat
  day : Nat
deriving DecidableEq, Repr

/-- Gregorian leap-year rule, as implemented by JavaScript `Date`. -/
def isLeapYear (y : Int) : Bool :=
  y % 4 == 0 && (y % 100 != 0 || y % 400 == 0)

/-- Number of days of 0-based month `m` of year `y`. -/
def daysInMonth (y : Int) (m : Nat) : Nat :=
  match m with
  | 0 => 31
  | 1 => if isLeapYear y then 29 else 28
  | 2 => 31
  | 3 => 30
  | 4 => 31
  | 5 => 30
  | 6 => 31
  | 7 => 31
  | 8 => 30
  | 9 => 31
  | 10 => 30
  | _ => 31

/-- A well-formed calendar date. -/
def validDate (d : JSDate) : Prop :=
  d.month < 12 ∧ 1 ≤ d.day ∧ d.day ≤ daysInMonth d.year d.month

instance (d : JSDate) : Decidable (validDate d) := by
  unfold validDate; infer_instance

/-- Year of the month reached from `d` after advancing `k` months. -/
def addMonthsYear (d : JSDate) (k : Nat) : Int :=
  d.year + ((d.month + k) / 12 : Nat)

/-- 0-based month reached from `d` after advancing `k` months. -/
def addMonthsMonth (d : JSDate) (k : Nat) : Nat :=
  (d.month + k) % 12

/-- `d.setMonth(d.getMonth() + k)` of JavaScript: the month index is
advanced by `k` (with year carry), keeping the day number; if the target
month is too short the date overflows into the following month by the
excess days.  For a valid input date (`day ≤ 31`) a single overflow step
suffices, since every month has at least 28 days. -/
def setMonthAdd (d : JSDate) (k : Nat) : JSDate :=
  let y1 : Int := addMonthsYear d k
  let m1 : Nat := addMonthsMonth d k
  if d.day ≤ daysInMonth y1 m1 then
    ⟨y1, m1, d.day⟩
  else
    ⟨addMonthsYear ⟨y1, m1, 1⟩ 1, addMonthsMonth ⟨y1, m1, 1⟩ 1,
     d.day - daysInMonth y1 m1⟩

/-- Absolute month index `12 * year + month` of a date. -/
def monthIndex (d : JSDate) : Int :=
  12 * d.year + d.month

/-- Two instants fall in the same calendar month: equal `getMonth()` and
equal `getFullYear()`. -/
def sameMonth (a b : JSDate) : Prop :=
  a.month = b.month ∧ a.year = b.year

instance (a b : JSDate) : Decidable (sameMonth a b) := by
  unfold sameMonth; infer_instance

/-- `billingPeriod` enum of the subscription schema. -/
inductive BillingPeriod where
  | monthly
  | quarterly
deriving DecidableEq, Repr

/-- `status` enum of the subscription schema. -/
inductive StatusT where
  | active
  | canceled
  | past_due
  | trialing
  | paused
  | expired
deriving DecidableEq, Repr

/-- The quota-relevant part of `SubscriptionTier.features`. -/
structure Features where
  designsPerMonth : Nat
  simultaneousDesigns : Nat
deriving DecidableEq, Repr

/-- `SubscriptionTier.pricing`. -/
structure Pricing where
  monthly : ℚ
  quarterly : ℚ
deriving DecidableEq, Repr

/-- A subscription tier (catalog entry). -/
structure Tier where
  features : Features
  pricing : Pricing
deriving DecidableEq, Repr

/-- `subscriptionTierSchema.methods.calculatePrice`. -/
def calculatePrice (t : Tier) (billingPeriod : BillingPeriod) : ℚ :=
  if billingPeriod = BillingPeriod.quarterly then t.pricing.quarterly
  else t.pricing.monthly

/-- The embedded `usage` subdocument of a subscription. -/
structure Usage where
  designsUsedThisMonth : Nat
  activeDesignRequests : Nat
  lastResetDate : JSDate
deriving DecidableEq, Repr

/-- A subscription document.  The `tier` reference always denotes an
existing tier document; `tierPopulated` records whether the reference has
been populated (resolved), which is what `this.populated('tier')` tests. -/
structure Subscription where
  tier : Tier
  tierPopulated : Bool
  billingPeriod : BillingPeriod
  amount : ℚ
  status : StatusT
  usage : Usage
  currentPeriodEnd : JSDate
  nextBillingDate : JSDate
  canceledAt : Option JSDate
  cancelationReason : Option String
  pausedAt : Option JSDate
  resumeDate : Option JSDate
deriving DecidableEq, Repr

/-- Error taxonomy of the module (the source throws `Error` with the
corresponding message). -/
inductive QuotaKind where
  | monthly
  | concurrent
deriving DecidableEq, Repr

inductive Err where
  | invalidTransition
  | quotaExceeded (kind : QuotaKind)
  | unresolvedReference
  | notFound
deriving DecidableEq, Repr

/-- Virtual `hasReachedDesignLimit`: `true` when the tier reference is
not populated, otherwise `designsUsedThisMonth >= designsPerMonth`. -/
def hasReachedDesignLimit (s : Subscription) : Bool :=
  if s.tierPopulated then
    s.usage.designsUsedThisMonth ≥ s.tier.features.designsPerMonth
  else
    true

/-- Virtual `canAddActiveDesign`: `false` when the tier reference is not
populated, otherwise `activeDesignRequests < simultaneousDesigns`. -/
def canAddActiveDesign (s : Subscription) : Bool :=
  if s.tierPopulated then
    s.usage.activeDesignRequests < s.tier.features.simultaneousDesigns
  else
    false

/-- `calculateNextBillingDate`: `currentPeriodEnd` with `setMonth`
advanced by 3 months (quarterly) or 1 month (otherwise). -/
def calculateNextBillingDate (s : Subscription) : JSDate :=
  if s.billingPeriod = BillingPeriod.quarterly then
    setMonthAdd s.currentPeriodEnd 3
  else
    setMonthAdd s.currentPeriodEnd 1

/-- `document.save()`: runs the pre-save hook, which recomputes
`nextBillingDate` via `calculateNextBillingDate` exactly when
`currentPeriodEnd` was modified (`cpeModified`). -/
def saveDoc (s : Subscription) (cpeModified : Bool) : Subscription :=
  if cpeModified then
    { s with nextBillingDate := calculateNextBillingDate s }
  else
    s

/-- `resetMonthlyUsage`: when the calendar month or year of `now` differs
from `usage.lastResetDate`, zero `designsUsedThisMonth`, stamp
`lastResetDate := now`, save, and report `true`; otherwise report `false`
without touching the document.  `now` is `new Date()` made explicit. -/
def resetMonthlyUsage (s : Subscription) (now : JSDate) : Subscription × Bool :=
  let lastReset := s.usage.lastResetDate
  if now.month ≠ lastReset.month ∨ now.year ≠ lastReset.year then
    (saveDoc { s with
        usage := { s.usage with designsUsedThisMonth := 0, lastResetDate := now } }
      false,
     true)
  else
    (s, false)

/-- `incrementDesignUsage`: reset monthly usage if due, populate the
tier, fail when the monthly quota is already consumed, otherwise add one
design, save, and return the new count. -/
def incrementDesignUsage (s : Subscription) (now : JSDate) :
    Except Err (Subscription × Nat) :=
  let s1 := (resetMonthlyUsage s now).1
  let s2 := { s1 with tierPopulated := true }
  if s2.usage.designsUsedThisMonth ≥ s2.tier.features.designsPerMonth then
    Except.error (Err.quotaExceeded QuotaKind.monthly)
  else
    let s3 := saveDoc { s2 with
        usage := { s2.usage with
          designsUsedThisMonth := s2.usage.designsUsedThisMonth + 1 } }
      false
    Except.ok (s3, s3.usage.designsUsedThisMonth)

/-- `updateActiveDesigns`: populate the tier, fail when `count` exceeds
the concurrent quota, otherwise store the absolute count, save, and
return it. -/
def updateActiveDesigns (s : Subscription) (count : Nat) :
    Except Err (Subscription × Nat) :=
  let s1 := { s with tierPopulated := true }
  if count > s1.tier.features.simultaneousDesigns then
    Except.error (Err.quotaExceeded QuotaKind.concurrent)
  else
    let s2 := saveDoc { s1 with
        usage := { s1.usage with activeDesignRequests := count } } false
    Except.ok (s2, s2.usage.activeDesignRequests)

/-- `cancel(reason)`: unconditionally set status `canceled`, stamp
`canceledAt := now`, store the reason, save. -/
def cancel (s : Subscription) (reason : Option String) (now : JSDate) :
    Subscription :=
  saveDoc { s with
      status := StatusT.canceled
      canceledAt := some now
      cancelationReason := reason }
    false

/-- `pause(resumeDate)`: unconditionally set status `paused`, stamp
`pausedAt := now`, store the resume date, save. -/
def pause (s : Subscription) (rd : Option JSDate) (now : JSDate) :
    Subscription :=
  saveDoc { s with
      status := StatusT.paused
      pausedAt := some now
      resumeDate := rd }
    false

/-- `resume()`: fail unless the current status is `paused`; otherwise
set status `active`, clear the pause fields, save. -/
def resume (s : Subscription) : Except Err Subscription :=
  if s.status ≠ StatusT.paused then
    Except.error Err.invalidTransition
  else
    Except.ok (saveDoc { s with
        status := StatusT.active
        pausedAt := none
        resumeDate := none }
      false)

/-- `n` successive `incrementDesignUsage` calls at the same instant,
stopping at the first failure. -/
def iterInc (now : JSDate) : Nat → Subscription → Except Err Subscription
  | 0, s => Except.ok s
  | n + 1, s =>
    match incrementDesignUsage s now with
    | Except.ok (s1, _) => iterInc now n s1
    | Except.error e => Except.error e

/-- Successive `resetMonthlyUsage` calls at the given instants, counting
how many of them performed a reset. -/
def resetChain (s : Subscription) : List JSDate → Subscription × Nat
  | [] => (s, 0)
  | d :: ds =>
    let r := resetMonthlyUsage s d
    let rest := resetChain r.1 ds
    (rest.1, (if r.2 then 1 else 0) + rest.2)

/-- Euclidean ceiling division for a positive divisor; this is what
`Math.ceil((periodEnd - now) / msPerDay)` computes on exact values. -/
def ceilDivPos (a b : Int) : Int := -((-a) / b)

/-- Result record of `calculateProration`. -/
structure ProrationResult where
  credit : ℚ
  charge : ℚ
  proration : ℚ
  daysRemaining : Int
deriving DecidableEq, Repr

/-- Controller helper `calculateProration(currentSubscription, newTier,
newBillingPeriod)`.  `nowMs` and `periodEndMs` are the epoch-millisecond
values of `new Date()` and of `currentSubscription.currentPeriodEnd`;
the day count uses a fixed 30-day (monthly) or 90-day (quarterly)
denominator. -/
def calculateProration (s : Subscription) (newTier : Tier)
    (newBP : BillingPeriod) (nowMs periodEndMs : Int) : ProrationResult :=
  let daysRemaining : Int := ceilDivPos (periodEndMs - nowMs) 86400000
  let totalDays : ℚ := if s.billingPeriod = BillingPeriod.quarterly then 90 else 30
  let currentDailyRate : ℚ := s.amount / totalDays
  let newAmount : ℚ := calculatePrice newTier newBP
  let newDailyRate : ℚ :=
    newAmount / (if newBP = BillingPeriod.quarterly then 90 else 30)
  let credit := currentDailyRate * (daysRemaining : ℚ)
  let charge := newDailyRate * (daysRemaining : ℚ)
  { credit := credit
    charge := charge
    proration := charge - credit
    daysRemaining := daysRemaining }

/-! Concrete fixtures used by witnesses and counterexamples. -/

/-- A small tier: 2 designs per month, 3 concurrent, $50 / $135. -/
def tierA : Tier :=
  { features := { designsPerMonth := 2, simultaneousDesigns := 3 }
    pricing := { monthly := 50, quarterly := 135 } }

def dJan15 : JSDate := ⟨2024, 0, 15⟩

def dFeb1 : JSDate := ⟨2024, 1, 1⟩

/-- An active monthly subscription on `tierA`, tier populated, usage 0,
last reset on Jan 15 2024. -/
def subA : Subscription :=
  { tier := tierA
    tierPopulated := true
    billingPeriod := BillingPeriod.monthly
    amount := 50
    status := StatusT.active
    usage := { designsUsedThisMonth := 0, activeDesignRequests := 0,
               lastResetDate := dJan15 }
    currentPeriodEnd := ⟨2024, 0, 31⟩
    nextBillingDate := ⟨2024, 2, 2⟩
    canceledAt := none
    cancelationReason := none
    pausedAt := none
    resumeDate := none }

/-- The same subscription with the tier reference not populated. -/
def subU : Subscription := { subA with tierPopulated := false }

/-- An already-canceled subscription with recorded cancellation data. -/
def subC : Subscription :=
  { subA with
      status := StatusT.canceled
      canceledAt := some dJan15
      cancelationReason := some "too expensive" }

/-- A paused subscription. -/
def subP : Subscription :=
  { subA with status := StatusT.paused, pausedAt := some dJan15 }

/-! Helper lemmas. -/

lemma resetMonthlyUsage_noop (s : Subscription) (now : JSDate)
    (h : sameMonth now s.usage.lastResetDate) :
    resetMonthlyUsage s now = (s, false) := by
  obtain ⟨h1, h2⟩ := h
  simp [resetMonthlyUsage, h1, h2]

lemma resetMonthlyUsage_due (s : Subscription) (now : JSDate)
    (h : ¬ sameMonth now s.usage.lastResetDate) :
    resetMonthlyUsage s now =
      ({ s with usage := { s.usage with
            designsUsedThisMonth := 0, lastResetDate := now } }, true) := by
  have hc : now.month ≠ s.usage.lastResetDate.month ∨
      now.year ≠ s.usage.lastResetDate.year := by
    by_contra hc
    push_neg at hc
    exact h ⟨hc.1, hc.2⟩
  simp only [resetMonthlyUsage, saveDoc]
  rw [if_pos hc, if_neg (by simp)]

/-! Theorems for the claims. -/

/-- C9: fail-closed defaults on an unresolved tier reference: when the
tier is not populated, `hasReachedDesignLimit` is `true` and
`canAddActiveDesign` is `false`, so both quota gates deny rather than
erroring or permitting. -/
theorem C9_fail_closed (s : Subscription) (h : s.tierPopulated = false) :
    hasReachedDesignLimit s = true ∧ canAddActiveDesign s = false := by
  simp [hasReachedDesignLimit, canAddActiveDesign, h]

theorem C9_fail_closed_witness :
    hasReachedDesignLimit subU = true ∧ canAddActiveDesign subU = false :=
  C9_fail_closed subU rfl

/-- C2 counterexample: on an account with an unresolved tier reference,
`hasReachedDesignLimit` returns the boolean `true`; it does not fail
with `UnresolvedReferenceError` (the virtual is a total boolean-valued
function). -/
theorem C2_counterexample :
    subU.tierPopulated = false ∧ hasReachedDesignLimit subU = true := by
  exact ⟨rfl, rfl⟩

/-- C2 amended: for a resolved tier, `hasReachedDesignLimit` is `true`
iff `designsUsedThisMonth ≥ designsPerMonth`; for an unresolved tier it
returns `true` (fail-closed) instead of failing. -/
theorem C2_hasReachedDesignLimit (s : Subscription) :
    (s.tierPopulated = true →
      (hasReachedDesignLimit s = true ↔
        s.usage.designsUsedThisMonth ≥ s.tier.features.designsPerMonth))
    ∧ (s.tierPopulated = false → hasReachedDesignLimit s = true) := by
  constructor <;> intro h <;> simp [hasReachedDesignLimit, h]

theorem C2_hasReachedDesignLimit_witness :
    hasReachedDesignLimit subA = true ↔
      subA.usage.designsUsedThisMonth ≥ subA.tier.features.designsPerMonth :=
  (C2_hasReachedDesignLimit subA).1 rfl

/-- C3 counterexample: `pause` does not check the current status.  On a
canceled account it succeeds, changes the account and sets
status `paused` instead of failing with `InvalidTransitionError`. -/
theorem C3_counterexample :
    subC.status ≠ StatusT.active ∧
    (pause subC none dFeb1).status = StatusT.paused ∧
    pause subC none dFeb1 ≠ subC := by
  refine ⟨by decide, rfl, by decide⟩

/-- C3 amended: `pause` unconditionally sets status `paused`, stamps
`pausedAt` and records the resume date, for any current status; `resume`
sets status `active` (clearing the pause fields) exactly when the current
status is `paused`, and fails with `InvalidTransitionError` otherwise. -/
theorem C3_pause_resume (s : Subscription) (rd : Option JSDate) (now : JSDate) :
    ((pause s rd now).status = StatusT.paused ∧
     (pause s rd now).pausedAt = some now ∧
     (pause s rd now).resumeDate = rd)
    ∧ (s.status = StatusT.paused →
        resume s = Except.ok { s with
          status := StatusT.active, pausedAt := none, resumeDate := none })
    ∧ (s.status ≠ StatusT.paused →
        resume s = Except.error Err.invalidTransition) := by
  refine ⟨⟨rfl, rfl, rfl⟩, ?_, ?_⟩ <;> intro h <;> simp [resume, saveDoc, h]

theorem C3_pause_resume_witness :
    resume subP = Except.ok { subP with
      status := StatusT.active, pausedAt := none, resumeDate := none } :=
  (C3_pause_resume subP none dFeb1).2.1 rfl

/-- C4 counterexample: `cancel` on an already-canceled account overwrites
both the original `canceledAt` timestamp and the original cancelation
reason. -/
theorem C4_counterexample :
    subC.status = StatusT.canceled ∧
    (cancel subC (some "other reason") dFeb1).canceledAt ≠ subC.canceledAt ∧
    (cancel subC (some "other reason") dFeb1).cancelationReason ≠
      subC.cancelationReason := by
  refine ⟨rfl, by decide, by decide⟩

/-- C4 amended: calling `cancel` on an already-canceled account succeeds
and keeps status `canceled`, but overwrites `canceledAt` with the current
time and `cancelationReason` with the newly supplied reason. -/
theorem C4_cancel_overwrites (s : Subscription) (reason : Option String)
    (now : JSDate) (h : s.status = StatusT.canceled) :
    cancel s reason now = { s with
      status := StatusT.canceled
      canceledAt := some now
      cancelationReason := reason } := by
  simp [cancel, saveDoc]

theorem C4_cancel_overwrites_witness :
    cancel subC (some "other reason") dFeb1 = { subC with
      status := StatusT.canceled
      canceledAt := some dFeb1
      cancelationReason := some "other reason" } :=
  C4_cancel_overwrites subC (some "other reason") dFeb1 rfl

/-- C10: the pre-save hook recomputes `nextBillingDate` via
`calculateNextBillingDate` whenever `currentPeriodEnd` was modified, so
after persisting a change of `currentPeriodEnd` to `cpe`,
`nextBillingDate` equals `cpe` advanced by one billing period (3 months
for quarterly, 1 month otherwise); a save without such a modification
leaves `nextBillingDate` untouched. -/
theorem C10_presave_nextBillingDate (s : Subscription) (cpe : JSDate) :
    (saveDoc { s with currentPeriodEnd := cpe } true).nextBillingDate =
      setMonthAdd cpe
        (if s.billingPeriod = BillingPeriod.quarterly then 3 else 1)
    ∧ (saveDoc s false).nextBillingDate = s.nextBillingDate := by
  constructor
  · simp only [saveDoc, calculateNextBillingDate, if_pos]
    split <;> simp
  · rfl

lemma sameMonth_trans_of (a b m : JSDate) (hab : sameMonth a m)
    (hbm : sameMonth b m) : sameMonth a b :=
  ⟨hab.1.trans hbm.1.symm, hab.2.trans hbm.2.symm⟩

lemma resetChain_zero_of_sameMonth :
    ∀ (ds : List JSDate) (s : Subscription) (m : JSDate),
      (∀ d ∈ ds, sameMonth d m) → sameMonth s.usage.lastResetDate m →
      (resetChain s ds).2 = 0 := by
  intro ds
  induction ds with
  | nil => intro s m _ _; rfl
  | cons d ds ih =>
    intro s m hall hs
    have hd : sameMonth d s.usage.lastResetDate :=
      sameMonth_trans_of d s.usage.lastResetDate m (hall d (by simp)) hs
    simp only [resetChain, resetMonthlyUsage_noop s d hd]
    simpa using ih s m (fun x hx => hall x (by simp [hx])) hs

lemma resetChain_le_one :
    ∀ (ds : List JSDate) (s : Subscription) (m : JSDate),
      (∀ d ∈ ds, sameMonth d m) → (resetChain s ds).2 ≤ 1 := by
  intro ds
  induction ds with
  | nil => intro s m _; simp [resetChain]
  | cons d ds ih =>
    intro s m hall
    by_cases hd : sameMonth d s.usage.lastResetDate
    · simp only [resetChain, resetMonthlyUsage_noop s d hd]
      simpa using ih s m (fun x hx => hall x (by simp [hx]))
    · simp only [resetChain, resetMonthlyUsage_due s d hd]
      have hz := resetChain_zero_of_sameMonth ds
        { s with usage := { s.usage with
            designsUsedThisMonth := 0, lastResetDate := d } } m
        (fun x hx => hall x (by simp [hx])) (hall d (by simp))
      simpa using hz

/-- C5: `resetMonthlyUsage` zeroes `designsUsedThisMonth`, stamps
`lastResetDate := now` and reports `true` exactly when the calendar
month or year of `now` differs from that of `lastResetDate`, and
otherwise reports `false` leaving the document unchanged; consequently a
chain of calls whose instants all lie in one calendar month performs at
most one reset. -/
theorem C5_resetMonthlyUsage (s : Subscription) (now : JSDate) :
    (¬ sameMonth now s.usage.lastResetDate →
      resetMonthlyUsage s now =
        ({ s with usage := { s.usage with
              designsUsedThisMonth := 0, lastResetDate := now } }, true))
    ∧ (sameMonth now s.usage.lastResetDate →
        resetMonthlyUsage s now = (s, false))
    ∧ ∀ (ds : List JSDate) (m : JSDate),
        (∀ d ∈ ds, sameMonth d m) → (resetChain s ds).2 ≤ 1 := by
  refine ⟨fun h => resetMonthlyUsage_due s now h,
          fun h => resetMonthlyUsage_noop s now h,
          fun ds m hall => resetChain_le_one ds s m hall⟩

theorem C5_resetMonthlyUsage_witness :
    resetMonthlyUsage subA dJan15 = (subA, false) :=
  (C5_resetMonthlyUsage subA dJan15).2.1 ⟨rfl, rfl⟩

/-- C6: `updateActiveDesigns` fails with the concurrent-quota error iff
`count > simultaneousDesigns`; otherwise it stores exactly `count`,
persists, and returns it.  In particular `count = quota` always succeeds
and `count = quota + 1` always fails. -/
theorem C6_updateActiveDesigns (s : Subscription) (count : Nat)
    (hp : s.tierPopulated = true) :
    (updateActiveDesigns s count =
        Except.error (Err.quotaExceeded QuotaKind.concurrent) ↔
      count > s.tier.features.simultaneousDesigns)
    ∧ (count ≤ s.tier.features.simultaneousDesigns →
        updateActiveDesigns s count =
          Except.ok
            ({ s with
                tierPopulated := true
                usage := { s.usage with activeDesignRequests := count } },
             count))
    ∧ updateActiveDesigns s s.tier.features.simultaneousDesigns =
        Except.ok
          ({ s with
              tierPopulated := true
              usage := { s.usage with
                activeDesignRequests := s.tier.features.simultaneousDesigns } },
           s.tier.features.simultaneousDesigns)
    ∧ updateActiveDesigns s (s.tier.features.simultaneousDesigns + 1) =
        Except.error (Err.quotaExceeded QuotaKind.concurrent) := by
  refine ⟨?_, ?_, ?_, ?_⟩
  · by_cases hgt : count > s.tier.features.simultaneousDesigns <;>
      simp [updateActiveDesigns, saveDoc, hgt]
  · intro hle
    simp [updateActiveDesigns, saveDoc, Nat.not_lt.mpr hle]
  · simp [updateActiveDesigns, saveDoc]
  · simp [updateActiveDesigns, saveDoc]

theorem C6_updateActiveDesigns_witness :
    updateActiveDesigns subA 3 =
      Except.ok
        ({ subA with
            tierPopulated := true
            usage := { subA.usage with activeDesignRequests := 3 } },
         3) :=
  (C6_updateActiveDesigns subA 3 rfl).2.1 (by decide)

/-- C7: proration round-trip.  When the stored `amount` is the current
tier's price for the current billing period (the invariant maintained at
checkout and upgrade) and `calculateProration` is applied with the
current tier and the current billing period, the credit and the charge
coincide and the proration is 0; both sides use the fixed 30-day
(monthly) / 90-day (quarterly) denominator and the same
`daysRemaining`. -/
theorem C7_calculateProration (s : Subscription) (newBP : BillingPeriod)
    (nowMs periodEndMs : Int)
    (ha : s.amount = calculatePrice s.tier s.billingPeriod)
    (hbp : newBP = s.billingPeriod) :
    (calculateProration s s.tier newBP nowMs periodEndMs).credit =
      (calculateProration s s.tier newBP nowMs periodEndMs).charge
    ∧ (calculateProration s s.tier newBP nowMs periodEndMs).proration = 0 := by
  subst hbp
  constructor <;> simp [calculateProration, ha]

theorem C7_calculateProration_witness :
    (calculateProration subA subA.tier BillingPeriod.monthly 0 2678400000).credit =
      (calculateProration subA subA.tier BillingPeriod.monthly 0 2678400000).charge
    ∧ (calculateProration subA subA.tier BillingPeriod.monthly 0 2678400000).proration = 0 :=
  C7_calculateProration subA BillingPeriod.monthly 0 2678400000 (by decide) rfl

lemma incrementDesignUsage_ok_of (s : Subscription) (now : JSDate)
    (hm : sameMonth now s.usage.lastResetDate)
    (hu : s.usage.designsUsedThisMonth < s.tier.features.designsPerMonth) :
    incrementDesignUsage s now =
      Except.ok
        ({ s with
            tierPopulated := true
            usage := { s.usage with
              designsUsedThisMonth := s.usage.designsUsedThisMonth + 1 } },
         s.usage.designsUsedThisMonth + 1) := by
  have hnot : ¬ s.usage.designsUsedThisMonth ≥ s.tier.features.designsPerMonth :=
    Nat.not_le.mpr hu
  simp [incrementDesignUsage, resetMonthlyUsage_noop s now hm, saveDoc, hnot]

lemma incrementDesignUsage_err_of (s : Subscription) (now : JSDate)
    (hm : sameMonth now s.usage.lastResetDate)
    (hu : s.usage.designsUsedThisMonth ≥ s.tier.features.designsPerMonth) :
    incrementDesignUsage s now =
      Except.error (Err.quotaExceeded QuotaKind.monthly) := by
  simp [incrementDesignUsage, resetMonthlyUsage_noop s now hm, hu]

lemma iterInc_ok_of :
    ∀ (k : Nat) (s : Subscription) (now : JSDate),
      sameMonth now s.usage.lastResetDate →
      s.usage.designsUsedThisMonth + k ≤ s.tier.features.designsPerMonth →
      ∃ s1, iterInc now k s = Except.ok s1 ∧
        s1.usage.designsUsedThisMonth = s.usage.designsUsedThisMonth + k ∧
        s1.usage.lastResetDate = s.usage.lastResetDate ∧
        s1.tier = s.tier := by
  intro k
  induction k with
  | zero =>
    intro s now _ _
    exact ⟨s, rfl, by simp, rfl, rfl⟩
  | succ n ih =>
    intro s now hm hle
    have hu : s.usage.designsUsedThisMonth < s.tier.features.designsPerMonth := by
      omega
    obtain ⟨s1, he, h1, h2, h3⟩ := ih
      { s with
          tierPopulated := true
          usage := { s.usage with
            designsUsedThisMonth := s.usage.designsUsedThisMonth + 1 } }
      now hm (by simp; omega)
    refine ⟨s1, ?_, ?_, ?_, ?_⟩
    · rw [iterInc, incrementDesignUsage_ok_of s now hm hu]
      exact he
    · simp at h1
      omega
    · simpa using h2
    · simpa using h3

/-- C1: with a resolved tier and a `lastResetDate` in the current
calendar month, `incrementDesignUsage` first runs the (no-op) monthly
reset check and then fails with the monthly quota error when
`designsUsedThisMonth ≥ designsPerMonth`, and otherwise adds exactly 1,
persists, and returns the new count; starting from usage 0, the first
`designsPerMonth` calls all succeed and the next call fails. -/
theorem C1_incrementDesignUsage (s : Subscription) (now : JSDate)
    (hp : s.tierPopulated = true)
    (hm : sameMonth now s.usage.lastResetDate) :
    (s.usage.designsUsedThisMonth ≥ s.tier.features.designsPerMonth →
      incrementDesignUsage s now =
        Except.error (Err.quotaExceeded QuotaKind.monthly))
    ∧ (s.usage.designsUsedThisMonth < s.tier.features.designsPerMonth →
        incrementDesignUsage s now =
          Except.ok
            ({ s with
                tierPopulated := true
                usage := { s.usage with
                  designsUsedThisMonth := s.usage.designsUsedThisMonth + 1 } },
             s.usage.designsUsedThisMonth + 1))
    ∧ (s.usage.designsUsedThisMonth = 0 →
        ∃ sq, iterInc now s.tier.features.designsPerMonth s = Except.ok sq ∧
          sq.usage.designsUsedThisMonth = s.tier.features.designsPerMonth ∧
          incrementDesignUsage sq now =
            Except.error (Err.quotaExceeded QuotaKind.monthly)) := by
  refine ⟨fun hu => incrementDesignUsage_err_of s now hm hu,
          fun hu => incrementDesignUsage_ok_of s now hm hu, ?_⟩
  intro h0
  obtain ⟨sq, he, h1, h2, h3⟩ :=
    iterInc_ok_of s.tier.features.designsPerMonth s now hm (by omega)
  refine ⟨sq, he, by omega, ?_⟩
  refine incrementDesignUsage_err_of sq now ?_ ?_
  · rw [h2]; exact hm
  · rw [h3]; omega

theorem C1_incrementDesignUsage_witness :
    incrementDesignUsage subA dJan15 =
      Except.ok
        ({ subA with
            tierPopulated := true
            usage := { subA.usage with
              designsUsedThisMonth := subA.usage.designsUsedThisMonth + 1 } },
         subA.usage.designsUsedThisMonth + 1) :=
  (C1_incrementDesignUsage subA dJan15 rfl ⟨rfl, rfl⟩).2.1 (by decide)

lemma daysInMonth_bounds (y : Int) (m : Nat) :
    28 ≤ daysInMonth y m ∧ daysInMonth y m ≤ 31 := by
  unfold daysInMonth
  split <;> first | omega | (split <;> omega)

lemma setMonthAdd_fit (d : JSDate) (k : Nat)
    (hle : d.day ≤ daysInMonth (addMonthsYear d k) (addMonthsMonth d k)) :
    setMonthAdd d k = ⟨addMonthsYear d k, addMonthsMonth d k, d.day⟩ := by
  simp only [setMonthAdd]
  rw [if_pos hle]

lemma setMonthAdd_overflow (d : JSDate) (k : Nat)
    (hle : ¬ d.day ≤ daysInMonth (addMonthsYear d k) (addMonthsMonth d k)) :
    setMonthAdd d k =
      ⟨addMonthsYear ⟨addMonthsYear d k, addMonthsMonth d k, 1⟩ 1,
       addMonthsMonth ⟨addMonthsYear d k, addMonthsMonth d k, 1⟩ 1,
       d.day - daysInMonth (addMonthsYear d k) (addMonthsMonth d k)⟩ := by
  simp only [setMonthAdd]
  rw [if_neg hle]

lemma setMonthAdd_spec (d : JSDate) (k : Nat) (hd : validDate d) :
    validDate (setMonthAdd d k)
    ∧ (d.day ≤ daysInMonth (addMonthsYear d k) (addMonthsMonth d k) →
        setMonthAdd d k =
          ⟨addMonthsYear d k, addMonthsMonth d k, d.day⟩ ∧
        monthIndex (setMonthAdd d k) = monthIndex d + k)
    ∧ (¬ d.day ≤ daysInMonth (addMonthsYear d k) (addMonthsMonth d k) →
        (setMonthAdd d k).day =
          d.day - daysInMonth (addMonthsYear d k) (addMonthsMonth d k) ∧
        (setMonthAdd d k).day ≤ 3 ∧
        monthIndex (setMonthAdd d k) = monthIndex d + k + 1) := by
  obtain ⟨hm12, hday1, hdayle⟩ := hd
  have hb1 := daysInMonth_bounds d.year d.month
  have hb2 := daysInMonth_bounds (addMonthsYear d k) (addMonthsMonth d k)
  by_cases hle : d.day ≤ daysInMonth (addMonthsYear d k) (addMonthsMonth d k)
  · have heq := setMonthAdd_fit d k hle
    refine ⟨?_, fun _ => ⟨heq, ?_⟩, fun hc => absurd hle hc⟩
    · rw [heq]
      simp only [validDate]
      exact ⟨by simp only [addMonthsMonth]; omega, hday1, hle⟩
    · rw [heq]
      simp only [monthIndex, addMonthsYear, addMonthsMonth]
      omega
  · have heq := setMonthAdd_overflow d k hle
    have hb3 := daysInMonth_bounds
      (addMonthsYear ⟨addMonthsYear d k, addMonthsMonth d k, 1⟩ 1)
      (addMonthsMonth ⟨addMonthsYear d k, addMonthsMonth d k, 1⟩ 1)
    refine ⟨?_, fun hc => absurd hc hle, fun _ => ⟨?_, ?_, ?_⟩⟩
    · rw [heq]
      simp only [validDate]
      refine ⟨by simp only [addMonthsMonth]; omega, by omega, by omega⟩
    · rw [heq]
    · rw [heq]
      simp only []
      omega
    · rw [heq]
      simp only [monthIndex, addMonthsYear, addMonthsMonth]
      omega

/-- C8 counterexample: with `currentPeriodEnd = 2024-01-31` and a
monthly billing period, `calculateNextBillingDate` yields `2024-03-02`
(JavaScript `setMonth` normalization), so the day-of-month (31) is not
preserved. -/
theorem C8_counterexample :
    subA.billingPeriod = BillingPeriod.monthly ∧
    subA.currentPeriodEnd = ⟨2024, 0, 31⟩ ∧
    calculateNextBillingDate subA = ⟨2024, 2, 2⟩ ∧
    (calculateNextBillingDate subA).day ≠ subA.currentPeriodEnd.day := by
  decide

/-- C8 amended: `calculateNextBillingDate` advances `currentPeriodEnd`
by exactly 1 calendar month (monthly) or 3 calendar months (quarterly)
under JavaScript `setMonth` normalization: for any advance `k`, the
result is a valid date; the day-of-month is preserved (and the month
index advances by exactly `k`) whenever the target month has at least
`currentPeriodEnd.day` days, and otherwise the date overflows into the
month after the target by the excess days (at most 3). -/
theorem C8_calculateNextBillingDate (s : Subscription)
    (hd : validDate s.currentPeriodEnd) :
    ((s.billingPeriod = BillingPeriod.monthly →
        calculateNextBillingDate s = setMonthAdd s.currentPeriodEnd 1)
     ∧ (s.billingPeriod = BillingPeriod.quarterly →
        calculateNextBillingDate s = setMonthAdd s.currentPeriodEnd 3))
    ∧ ∀ k : Nat,
        validDate (setMonthAdd s.currentPeriodEnd k)
        ∧ (s.currentPeriodEnd.day ≤
              daysInMonth (addMonthsYear s.currentPeriodEnd k)
                (addMonthsMonth s.currentPeriodEnd k) →
            setMonthAdd s.currentPeriodEnd k =
              ⟨addMonthsYear s.currentPeriodEnd k,
               addMonthsMonth s.currentPeriodEnd k,
               s.currentPeriodEnd.day⟩ ∧
            monthIndex (setMonthAdd s.currentPeriodEnd k) =
              monthIndex s.currentPeriodEnd + k)
        ∧ (¬ s.currentPeriodEnd.day ≤
              daysInMonth (addMonthsYear s.currentPeriodEnd k)
                (addMonthsMonth s.currentPeriodEnd k) →
            (setMonthAdd s.currentPeriodEnd k).day =
              s.currentPeriodEnd.day -
                daysInMonth (addMonthsYear s.currentPeriodEnd k)
                  (addMonthsMonth s.currentPeriodEnd k) ∧
            (setMonthAdd s.currentPeriodEnd k).day ≤ 3 ∧
            monthIndex (setMonthAdd s.currentPeriodEnd k) =
              monthIndex s.currentPeriodEnd + k + 1) := by
  refine ⟨⟨fun h => ?_, fun h => ?_⟩, fun k => setMonthAdd_spec s.currentPeriodEnd k hd⟩
  · simp [calculateNextBillingDate, h]
  · simp [calculateNextBillingDate, h]

theorem C8_calculateNextBillingDate_witness :
    calculateNextBillingDate subA = setMonthAdd subA.currentPeriodEnd 1 :=
  (C8_calculateNextBillingDate subA (by decide)).1.1 rfl

end CanvasCue
